import Mathlib

/-!
Shallow embedding of the PDFora PDF-compression service (Node.js) and proofs
about its specification claims.

The embedding covers:
  - `services/pdfCompressor.js`: `_calculateCompressionRatio`,
    `_buildGhostscriptCommand`, `_executeGhostscript` (candidate walk) and
    `compress`;
  - `services/fileManager.js`: `validateFile`, `formatBytes`,
    `_cleanDirectory` and `cleanupOldFiles`;
  - `server.js` (listed in the repository README): the output-filename
    generation of `POST /api/compress` and the `GET /api/download/:filename`
    handler.

JavaScript numbers are modelled as exact rationals (`ℚ`) with `Math.round`
as `⌊q + 1/2⌋` (round half toward positive infinity, as in JS); byte counts
are `ℕ`/`ℤ`; fallible operations return `Except`; filesystem and process
effects are passed in explicitly (directory listings, spawn outcomes) and
observable effects (deleted files, attempted commands) are returned as
explicit logs.
-/

namespace PDFora

/-! ## Configuration (config/config.js) -/

/-- config.upload.maxFileSize = 250 * 1024 * 1024 (250 MB in bytes). -/
def maxFileSize : ℕ := 250 * 1024 * 1024

/-- config.upload.allowedMimeTypes = ['application/pdf']. -/
def allowedMimeTypes : List String := ["application/pdf"]

/-- config.cleanup.maxFileAge = 60 * 60 * 1000 (1 hour in milliseconds). -/
def maxFileAgeConfig : ℤ := 60 * 60 * 1000

/-! ## JavaScript number helpers -/

/-- JavaScript `Math.round`: rounds to the nearest integer, half toward
positive infinity (`Math.round (-2.5) = -2`), i.e. `⌊q + 1/2⌋`. -/
def jsRound (q : ℚ) : ℤ := ⌊q + 1 / 2⌋

/-! ## pdfCompressor.js: `_calculateCompressionRatio` -/

/-- Embedding of `_calculateCompressionRatio(originalBytes, compressedBytes)`:
`if (originalBytes === 0) return 0;`
`const ratio = ((originalBytes - compressedBytes) / originalBytes) * 100;`
`return Math.max(0, Math.round(ratio * 10) / 10);` -/
def calculateCompressionRatio (originalBytes compressedBytes : ℕ) : ℚ :=
  if originalBytes = 0 then 0
  else
    let ratio : ℚ := (((originalBytes : ℚ) - (compressedBytes : ℚ)) / (originalBytes : ℚ)) * 100
    max 0 ((jsRound (ratio * 10) : ℚ) / 10)

/-! Helper lemmas about `jsRound`. -/

theorem jsRound_intCast (z : ℤ) : jsRound (z : ℚ) = z := by
  unfold jsRound
  rw [add_comm, Int.floor_add_int]
  norm_num

theorem jsRound_eq (q : ℚ) (z : ℤ) (h1 : (z : ℚ) ≤ q + 1 / 2) (h2 : q + 1 / 2 < z + 1) :
    jsRound q = z := by
  unfold jsRound
  exact Int.floor_eq_iff.mpr ⟨h1, h2⟩

/-- C2: for all non-negative integers `original` and `compressed`, the
compression-ratio computation returns 0 when `original = 0` (no division
fault), and otherwise returns
`max(0, round(((original − compressed) / original) * 1000) / 10)`, a
one-decimal percentage that is never negative; in particular
`ratio 1000 400 = 60.0` and `ratio 0 c = 0` for every `c`. -/
theorem calculateCompressionRatio_spec :
    (∀ c : ℕ, calculateCompressionRatio 0 c = 0) ∧
    (∀ o c : ℕ, o ≠ 0 →
      calculateCompressionRatio o c =
        max 0 ((jsRound ((((o : ℕ) : ℚ) - ((c : ℕ) : ℚ)) / ((o : ℕ) : ℚ) * 1000) : ℚ) / 10)) ∧
    (∀ o c : ℕ, 0 ≤ calculateCompressionRatio o c) ∧
    calculateCompressionRatio 1000 400 = 60 := by
  refine ⟨?_, ?_, ?_, ?_⟩
  · intro c
    simp [calculateCompressionRatio]
  · intro o c ho
    unfold calculateCompressionRatio
    rw [if_neg ho]
    dsimp only
    have harg : (((o : ℚ) - (c : ℚ)) / (o : ℚ)) * 100 * 10 =
        (((o : ℚ) - (c : ℚ)) / (o : ℚ)) * 1000 := by ring
    rw [harg]
  · intro o c
    unfold calculateCompressionRatio
    split
    · exact le_refl 0
    · exact le_max_left 0 _
  · unfold calculateCompressionRatio
    rw [if_neg (by norm_num)]
    dsimp only
    have h1 : ((((1000 : ℕ) : ℚ) - ((400 : ℕ) : ℚ)) / ((1000 : ℕ) : ℚ)) * 100 * 10 = 600 := by
      norm_num
    rw [h1]
    have h2 : jsRound 600 = 600 := by
      have := jsRound_intCast 600
      norm_num at this
      exact this
    rw [h2]
    norm_num

/-- C2 witness: the non-zero-denominator clause of
`calculateCompressionRatio_spec` applied at original = 2, compressed = 1. -/
theorem calculateCompressionRatio_spec_witness :
    (2 : ℕ) ≠ 0 ∧
      calculateCompressionRatio 2 1 =
        max 0 ((jsRound ((((2 : ℕ) : ℚ) - ((1 : ℕ) : ℚ)) / ((2 : ℕ) : ℚ) * 1000) : ℚ) / 10) :=
  ⟨by norm_num, calculateCompressionRatio_spec.2.1 2 1 (by norm_num)⟩

/-! ## pdfCompressor.js: `_buildGhostscriptCommand` -/

/-- A value in `config.compression.options`: the config holds booleans and
strings (`typeof value === 'boolean'` distinguishes them). -/
inductive OptionValue where
  | boolVal (b : Bool) : OptionValue
  | strVal (s : String) : OptionValue
deriving DecidableEq

/-- Rendering of one config option, from the loop body of
`_buildGhostscriptCommand`: a boolean value renders as the bare switch
`-key` (whatever the boolean is), any other value as `-key=value`. -/
def renderOption (key : String) (value : OptionValue) : String :=
  match value with
  | OptionValue.boolVal _ => "-" ++ key
  | OptionValue.strVal v => "-" ++ key ++ "=" ++ v

/-- Embedding of `_buildGhostscriptCommand(inputPath, outputPath)`: starts
from the fixed argument list
`['-sDEVICE=pdfwrite', '-dPDFSETTINGS=' + quality, '-sOutputFile=' + outputPath, inputPath]`
and `unshift`s each rendered entry of `Object.entries(this.options)` in
iteration order. -/
def buildGhostscriptCommand (quality inputPath outputPath : String)
    (options : List (String × OptionValue)) : List String :=
  options.foldl
    (fun args kv => renderOption kv.1 kv.2 :: args)
    ["-sDEVICE=pdfwrite", "-dPDFSETTINGS=" ++ quality,
     "-sOutputFile=" ++ outputPath, inputPath]

/-! ## pdfCompressor.js: `_executeGhostscript` -/

/-- Outcome of `spawn(command, args)` as the code observes it: either an
`error` event with `code === 'ENOENT'`, an `error` event with any other
code/message, or a `close` event with an exit code and the captured
stderr. -/
inductive SpawnOutcome where
  | errorENOENT : SpawnOutcome
  | errorOther (msg : String) : SpawnOutcome
  | close (code : ℤ) (stderr : String) : SpawnOutcome
deriving DecidableEq

/-- The error the promise of `_executeGhostscript` can reject with. -/
inductive GsError where
  | notFound : GsError
  | spawnError (msg : String) : GsError
  | exitError (code : ℤ) (stderr : String) : GsError
deriving DecidableEq

/-- The `message` carried by each rejection in `_executeGhostscript`. -/
def gsErrorMessage : GsError → String
  | GsError.notFound =>
      "Ghostscript not found. Please install Ghostscript and ensure it is in your PATH. " ++
        "Visit https://www.ghostscript.com/download/gsdnld.html"
  | GsError.spawnError msg => msg
  | GsError.exitError code stderr =>
      "Ghostscript exited with code " ++ toString code ++ ": " ++ stderr

/-- A Windows Ghostscript installation root as `_executeGhostscript` scans
it: a base path that exists, and the version subdirectories under it whose
`bin` directory exists. -/
structure WinGsRoot where
  basePath : String
  versions : List String

/-- The candidates one root contributes: for each version directory, the
64-bit executable then the 32-bit one (`path.join` with `\` on win32). -/
def winRootCandidates (root : WinGsRoot) : List String :=
  root.versions.flatMap fun version =>
    [root.basePath ++ "\\" ++ version ++ "\\bin\\gswin64c.exe",
     root.basePath ++ "\\" ++ version ++ "\\bin\\gswin32c.exe"]

/-- The ordered candidate list `gsCommands` of `_executeGhostscript`: the
configured `ghostscriptPath` if set, then the command names
`gs`, `gswin64c`, `gswin32c`, then (on win32 only) the per-version
executables found under the common installation roots. -/
def buildGsCommands (configuredPath : Option String) (isWin32 : Bool)
    (winRoots : List WinGsRoot) : List String :=
  (match configuredPath with
   | some p => [p]
   | none => []) ++
  ["gs", "gswin64c", "gswin32c"] ++
  (if isWin32 then winRoots.flatMap winRootCandidates else [])

/-- Embedding of the `tryCommand` walk of `_executeGhostscript`.
`spawnResult` gives the outcome of spawning a given command with the fixed
argument list. Returns the promise's resolution together with the list of
commands actually attempted, in order:
 - list exhausted: reject with the "Ghostscript not found" error;
 - spawn error `ENOENT`: advance to the next candidate;
 - any other spawn error: reject with it;
 - exit code 0: resolve immediately;
 - non-zero exit code: advance if this was not the last candidate,
   otherwise reject with the exit error. -/
def tryCommands (spawnResult : String → SpawnOutcome) :
    List String → Except GsError Unit × List String
  | [] => (Except.error GsError.notFound, [])
  | command :: rest =>
    match spawnResult command with
    | SpawnOutcome.errorENOENT =>
        let r := tryCommands spawnResult rest
        (r.1, command :: r.2)
    | SpawnOutcome.errorOther msg => (Except.error (GsError.spawnError msg), [command])
    | SpawnOutcome.close code stderr =>
        if code = 0 then (Except.ok (), [command])
        else if rest.isEmpty then (Except.error (GsError.exitError code stderr), [command])
        else
          let r := tryCommands spawnResult rest
          (r.1, command :: r.2)

/-- `_executeGhostscript`: build the candidate list, then walk it. -/
def executeGhostscript (spawnResult : String → SpawnOutcome)
    (configuredPath : Option String) (isWin32 : Bool) (winRoots : List WinGsRoot) :
    Except GsError Unit × List String :=
  tryCommands spawnResult (buildGsCommands configuredPath isWin32 winRoots)

theorem exitError_message_ne_notFound_message (code : ℤ) (stderr : String) :
    gsErrorMessage (GsError.exitError code stderr) ≠ gsErrorMessage GsError.notFound := by
  intro h
  have hd := congrArg String.data h
  simp only [gsErrorMessage, String.data_append, List.append_assoc] at hd
  have h29 := congrArg (List.take 29) hd
  rw [List.take_left' (by decide)] at h29
  exact absurd h29 (by decide)

/-- C1: the invoker tries its ordered candidate list (configured path if
set, then `gs`, `gswin64c`, `gswin32c`, then on Windows the per-version
executables) strictly in order: an ENOENT spawn failure advances to the
next candidate; a non-zero exit advances unless the candidate is the last
one; a zero exit succeeds immediately without trying any further
candidate; exhausting the list fails with an error identifiable as
"Ghostscript not found", distinguishable from a generic non-zero-exit
failure. -/
theorem executeGhostscript_candidate_walk :
    (∀ p roots, buildGsCommands (some p) true roots =
        p :: "gs" :: "gswin64c" :: "gswin32c" :: roots.flatMap winRootCandidates) ∧
    (∀ cfg roots, buildGsCommands cfg false roots =
        cfg.toList ++ ["gs", "gswin64c", "gswin32c"]) ∧
    (∀ env, tryCommands env [] = (Except.error GsError.notFound, [])) ∧
    (∀ env c rest, env c = SpawnOutcome.errorENOENT →
        tryCommands env (c :: rest) =
          ((tryCommands env rest).1, c :: (tryCommands env rest).2)) ∧
    (∀ env c rest stderr, env c = SpawnOutcome.close 0 stderr →
        tryCommands env (c :: rest) = (Except.ok (), [c])) ∧
    (∀ env c c' rest code stderr, env c = SpawnOutcome.close code stderr → code ≠ 0 →
        tryCommands env (c :: c' :: rest) =
          ((tryCommands env (c' :: rest)).1, c :: (tryCommands env (c' :: rest)).2)) ∧
    (∀ env c code stderr, env c = SpawnOutcome.close code stderr → code ≠ 0 →
        tryCommands env [c] = (Except.error (GsError.exitError code stderr), [c])) ∧
    (∀ env cmds, (∀ c ∈ cmds, env c = SpawnOutcome.errorENOENT) →
        (tryCommands env cmds).1 = Except.error GsError.notFound) ∧
    (∀ env c1 c2 c3 rest stderr, env c1 = SpawnOutcome.errorENOENT →
        env c2 = SpawnOutcome.errorENOENT → env c3 = SpawnOutcome.close 0 stderr →
        tryCommands env (c1 :: c2 :: c3 :: rest) = (Except.ok (), [c1, c2, c3])) ∧
    (∃ s, gsErrorMessage GsError.notFound = "Ghostscript not found" ++ s) ∧
    (∀ code stderr, ∃ s,
        gsErrorMessage (GsError.exitError code stderr) =
          "Ghostscript exited with code " ++ s) ∧
    (∀ code stderr,
        gsErrorMessage (GsError.exitError code stderr) ≠ gsErrorMessage GsError.notFound) := by
  refine ⟨?_, ?_, ?_, ?_, ?_, ?_, ?_, ?_, ?_, ?_, ?_, ?_⟩
  · intro p roots
    simp [buildGsCommands]
  · intro cfg roots
    cases cfg <;> simp [buildGsCommands]
  · intro env
    rfl
  · intro env c rest h
    simp [tryCommands, h]
  · intro env c rest stderr h
    simp [tryCommands, h]
  · intro env c c' rest code stderr h hcode
    simp [tryCommands, h, hcode]
  · intro env c code stderr h hcode
    simp [tryCommands, h, hcode]
  · intro env cmds h
    induction cmds with
    | nil => rfl
    | cons c rest ih =>
      have hc : env c = SpawnOutcome.errorENOENT := h c (List.mem_cons_self c rest)
      simp [tryCommands, hc]
      exact ih fun x hx => h x (List.mem_cons_of_mem c hx)
  · intro env c1 c2 c3 rest stderr h1 h2 h3
    simp [tryCommands, h1, h2, h3]
  · exact ⟨". Please install Ghostscript and ensure it is in your PATH. " ++
      "Visit https://www.ghostscript.com/download/gsdnld.html", by simp [gsErrorMessage]⟩
  · intro code stderr
    exact ⟨toString code ++ ": " ++ stderr,
      by simp [gsErrorMessage, String.append_assoc]⟩
  · exact exitError_message_ne_notFound_message

/-- C1 witness: the invoker walk applied at a concrete environment in which
the first two candidates fail to spawn with ENOENT and the third exits 0:
the walk succeeds after attempting exactly the first three candidates. -/
theorem executeGhostscript_candidate_walk_witness :
    tryCommands
        (fun c => if c = "gswin32c" then SpawnOutcome.close 0 "" else SpawnOutcome.errorENOENT)
        ["gs", "gswin64c", "gswin32c", "C:\\gs\\bin\\gswin64c.exe"] =
      (Except.ok (), ["gs", "gswin64c", "gswin32c"]) :=
  executeGhostscript_candidate_walk.2.2.2.2.2.2.2.2.1
    (fun c => if c = "gswin32c" then SpawnOutcome.close 0 "" else SpawnOutcome.errorENOENT)
    "gs" "gswin64c" "gswin32c" ["C:\\gs\\bin\\gswin64c.exe"] ""
    (by decide) (by decide) (by decide)

/-! Helper: `unshift` in a loop is reverse-map-prepend. -/

theorem foldl_cons_eq_reverse_map_append {α β : Type} (f : α → β) :
    ∀ (l : List α) (init : List β),
      l.foldl (fun acc x => f x :: acc) init = (l.map f).reverse ++ init := by
  intro l
  induction l with
  | nil => intro init; simp
  | cons x xs ih => intro init; simp [List.foldl_cons, ih]

theorem getLast?_append_fixed {α : Type} (xs : List α) (a b c d : α) :
    (xs ++ [a, b, c, d]).getLast? = some d := by
  rw [List.getLast?_append_cons]
  rfl

/-- C9: in the built Ghostscript argument list, every boolean-typed option
renders as the bare switch `-key` whether the value is true or false,
every non-boolean option renders as `-key=value`, and all option flags
precede the fixed tail `-sDEVICE=pdfwrite`, `-dPDFSETTINGS=<quality>`,
`-sOutputFile=<outputPath>`, `inputPath`, which appears last in that
order. -/
theorem buildGhostscriptCommand_spec :
    (∀ q i o opts, buildGhostscriptCommand q i o opts =
        (opts.map fun kv => renderOption kv.1 kv.2).reverse ++
          ["-sDEVICE=pdfwrite", "-dPDFSETTINGS=" ++ q, "-sOutputFile=" ++ o, i]) ∧
    (∀ k, renderOption k (OptionValue.boolVal true) = "-" ++ k ∧
        renderOption k (OptionValue.boolVal false) = "-" ++ k) ∧
    (∀ k v, renderOption k (OptionValue.strVal v) = "-" ++ k ++ "=" ++ v) ∧
    (∀ q i o opts, (buildGhostscriptCommand q i o opts).getLast? = some i) := by
  refine ⟨?_, ?_, ?_, ?_⟩
  · intro q i o opts
    exact foldl_cons_eq_reverse_map_append _ opts _
  · intro k
    exact ⟨rfl, rfl⟩
  · intro k v
    rfl
  · intro q i o opts
    rw [show buildGhostscriptCommand q i o opts =
        (opts.map fun kv => renderOption kv.1 kv.2).reverse ++
          ["-sDEVICE=pdfwrite", "-dPDFSETTINGS=" ++ q, "-sOutputFile=" ++ o, i] from
      foldl_cons_eq_reverse_map_append _ opts _]
    exact getLast?_append_fixed _ _ _ _ _

/-! ## fileManager.js: `formatBytes` -/

/-- The `sizes` array of `formatBytes`. -/
def sizeUnits : List String := ["Bytes", "KB", "MB", "GB"]

/-- Decimal rendering of the value `n / 100` exactly as JavaScript prints
the corresponding number (`Math.round(x * 100) / 100`): the integer part,
then up to two fractional digits with trailing zeros omitted. -/
def renderHundredths (n : ℕ) : String :=
  let intPart := n / 100
  let frac := n % 100
  if frac = 0 then toString intPart
  else if frac % 10 = 0 then toString intPart ++ "." ++ toString (frac / 10)
  else if frac < 10 then toString intPart ++ ".0" ++ toString frac
  else toString intPart ++ "." ++ toString frac

/-- Embedding of `formatBytes(bytes)`:
`if (bytes === 0) return '0 Bytes';`
`const k = 1024; const sizes = ['Bytes', 'KB', 'MB', 'GB'];`
`const i = Math.floor(Math.log(bytes) / Math.log(k));`
`return Math.round((bytes / Math.pow(k, i)) * 100) / 100 + ' ' + sizes[i];`
`Math.floor(Math.log(bytes) / Math.log(1024))` is the integer part of the
base-1024 logarithm, i.e. `Nat.log 1024 bytes`; an out-of-range `sizes[i]`
is JavaScript `undefined`, which string concatenation renders as
"undefined". -/
def formatBytes (bytes : ℕ) : String :=
  if bytes = 0 then "0 Bytes"
  else
    let k : ℕ := 1024
    let i := Nat.log k bytes
    let scaled := (jsRound ((bytes : ℚ) / (k : ℚ) ^ i * 100)).toNat
    renderHundredths scaled ++ " " ++ sizeUnits.getD i "undefined"

/-- C6 counterexample: the claim quantifies over every positive byte count,
but at 2 · 1024⁴ bytes the unit index `floor(log_1024 bytes)` is 4, past
the end of the `['Bytes', 'KB', 'MB', 'GB']` array, so the code appends
JavaScript `undefined` rather than a unit from that list. -/
theorem formatBytes_unit_overflow : formatBytes (1024 ^ 4 * 2) = "2 undefined" := by
  have hlog : Nat.log 1024 (1024 ^ 4 * 2) = 4 :=
    Nat.log_eq_of_pow_le_of_lt_pow (by norm_num) (by norm_num)
  unfold formatBytes
  rw [if_neg (by norm_num)]
  dsimp only
  rw [hlog]
  norm_num
  rw [jsRound_eq 200 200 (by norm_num) (by norm_num)]
  decide

/-- C6 amended: `formatBytes 0 = "0 Bytes"`, and for every positive byte
count below 1024⁴ the result is the value scaled by the unit index
`floor(log_1024 bytes)`, rounded to two decimals, followed by the unit
selected from Bytes/KB/MB/GB at that index (for counts of 1024⁴ and above
the index falls outside the unit list and JavaScript appends "undefined");
in particular `formatBytes 1536 = "1.5 KB"`. -/
theorem formatBytes_spec :
    formatBytes 0 = "0 Bytes" ∧
    formatBytes 1536 = "1.5 KB" ∧
    (∀ b : ℕ, 0 < b → b < 1024 ^ 4 →
      ∃ u, u ∈ sizeUnits ∧
        sizeUnits.getD (Nat.log 1024 b) "undefined" = u ∧
        formatBytes b =
          renderHundredths (jsRound ((b : ℚ) / ((1024 : ℕ) : ℚ) ^ Nat.log 1024 b * 100)).toNat
            ++ " " ++ u) := by
  refine ⟨by simp [formatBytes], ?_, ?_⟩
  · have hlog : Nat.log 1024 1536 = 1 :=
      Nat.log_eq_of_pow_le_of_lt_pow (by norm_num) (by norm_num)
    unfold formatBytes
    rw [if_neg (by norm_num)]
    dsimp only
    rw [hlog]
    norm_num
    rw [jsRound_eq 150 150 (by norm_num) (by norm_num)]
    decide
  · intro b hb hlt
    have hi : Nat.log 1024 b < 4 := Nat.log_lt_of_lt_pow hb.ne' hlt
    refine ⟨sizeUnits.getD (Nat.log 1024 b) "undefined", ?_, rfl, ?_⟩
    · have h4 : Nat.log 1024 b = 0 ∨ Nat.log 1024 b = 1 ∨
          Nat.log 1024 b = 2 ∨ Nat.log 1024 b = 3 := by omega
      rcases h4 with h | h | h | h <;> rw [h] <;> simp [sizeUnits]
    · unfold formatBytes
      rw [if_neg hb.ne']

/-- C6 witness: the general clause of `formatBytes_spec` applied at 1536
bytes. -/
theorem formatBytes_spec_witness :
    0 < 1536 ∧ (1536 : ℕ) < 1024 ^ 4 ∧
      ∃ u, u ∈ sizeUnits ∧
        sizeUnits.getD (Nat.log 1024 1536) "undefined" = u ∧
        formatBytes 1536 =
          renderHundredths
              (jsRound (((1536 : ℕ) : ℚ) / ((1024 : ℕ) : ℚ) ^ Nat.log 1024 1536 * 100)).toNat
            ++ " " ++ u :=
  ⟨by norm_num, by norm_num, formatBytes_spec.2.2 1536 (by norm_num) (by norm_num)⟩

/-! ## String helpers (JavaScript `String.prototype.includes` / `replace`) -/

/-- Whether `pat` occurs at the very start of `s`. -/
def matchesAt : List Char → List Char → Bool
  | [], _ => true
  | _ :: _, [] => false
  | p :: ps, c :: cs => if p = c then matchesAt ps cs else false

/-- Whether `pat` occurs anywhere in `s` (JavaScript `s.includes(pat)`). -/
def occursIn (pat : List Char) : List Char → Bool
  | [] => pat.isEmpty
  | c :: rest => matchesAt pat (c :: rest) || occursIn pat rest

/-- JavaScript `s.includes(pat)` on strings. -/
def jsIncludes (s pat : String) : Bool := occursIn pat.data s.data

/-- JavaScript `s.replace(pat, '')` for a string pattern: removes the first
(leftmost) occurrence of `pat`, and returns `s` unchanged when there is
none. -/
def removeFirstOcc : List Char → List Char → List Char
  | [], _ => []
  | c :: rest, pat =>
    if matchesAt pat (c :: rest) then (c :: rest).drop pat.length
    else c :: removeFirstOcc rest pat

/-- JavaScript `s.replace(pat, '')` on strings. -/
def jsReplaceEmpty (s pat : String) : String := String.mk (removeFirstOcc s.data pat.data)

/-! ## fileManager.js: `validateFile` -/

/-- The fields of the Multer file object that the service reads. -/
structure UploadedFile where
  originalname : String
  mimetype : String
  size : ℕ
deriving DecidableEq

/-- The verdict object `{ success, message }` returned by `validateFile`. -/
structure ValidationResult where
  success : Bool
  message : String
deriving DecidableEq

/-- Embedding of `validateFile(file)`: reject a missing file, then a
mimetype outside `config.upload.allowedMimeTypes`, then a size above
`config.upload.maxFileSize` (message carries the limit converted to MB),
otherwise accept. A pure function of its argument, as in the source. -/
def validateFile (file : Option UploadedFile) : ValidationResult :=
  match file with
  | none => { success := false, message := "No file uploaded" }
  | some f =>
    if ¬ (allowedMimeTypes.contains f.mimetype) then
      { success := false, message := "Only PDF files are allowed" }
    else if f.size > maxFileSize then
      { success := false,
        message := "File size exceeds " ++ toString (maxFileSize / (1024 * 1024)) ++ " MB limit" }
    else { success := true, message := "File is valid" }

/-- C5 counterexample: the claim demands that every upload whose size
exceeds the maximum be rejected with a message containing the limit in MB,
but the mimetype check runs first: an oversized upload of a disallowed
type is rejected with "Only PDF files are allowed", which does not contain
"250". -/
theorem validateFile_oversize_message_counterexample :
    validateFile
        (some { originalname := "big.txt", mimetype := "text/plain", size := maxFileSize + 1 }) =
      { success := false, message := "Only PDF files are allowed" } ∧
    (maxFileSize + 1 > maxFileSize) ∧
    jsIncludes "Only PDF files are allowed" "250" = false := by
  refine ⟨by decide, by decide, by decide⟩

/-- C5 amended: `validateFile` rejects every upload whose declared media
type is not in the allowed set; every oversized upload is rejected, and
when its type is allowed the rejection message contains the configured
limit in MB; every present upload with an allowed type and size within the
limit is accepted; a missing upload is rejected. (The function is pure: it
is modelled as a plain function of the file object.) -/
theorem validateFile_spec :
    (∀ f : UploadedFile, ¬ (allowedMimeTypes.contains f.mimetype) = true →
      validateFile (some f) = { success := false, message := "Only PDF files are allowed" }) ∧
    (∀ f : UploadedFile, f.size > maxFileSize → (validateFile (some f)).success = false) ∧
    (∀ f : UploadedFile, allowedMimeTypes.contains f.mimetype = true → f.size > maxFileSize →
      validateFile (some f) =
        { success := false,
          message := "File size exceeds " ++ toString (maxFileSize / (1024 * 1024)) ++
            " MB limit" } ∧
      jsIncludes (validateFile (some f)).message "250 MB" = true) ∧
    (∀ f : UploadedFile, allowedMimeTypes.contains f.mimetype = true → f.size ≤ maxFileSize →
      validateFile (some f) = { success := true, message := "File is valid" }) ∧
    validateFile none = { success := false, message := "No file uploaded" } := by
  refine ⟨?_, ?_, ?_, ?_, rfl⟩
  · intro f hf
    simp only [validateFile, if_pos hf]
  · intro f hsize
    by_cases hmime : allowedMimeTypes.contains f.mimetype = true
    · simp only [validateFile, hmime, not_true_eq_false, Bool.false_eq_true, if_false,
        if_pos hsize]
    · simp only [validateFile]
      rw [if_pos hmime]
  · intro f hmime hsize
    have hstep : validateFile (some f) =
        { success := false,
          message := "File size exceeds " ++ toString (maxFileSize / (1024 * 1024)) ++
            " MB limit" } := by
      simp only [validateFile, hmime, not_true_eq_false, Bool.false_eq_true, if_false,
        if_pos hsize]
    refine ⟨hstep, ?_⟩
    rw [hstep]
    decide
  · intro f hmime hsize
    simp only [validateFile, hmime, not_true_eq_false, Bool.false_eq_true, if_false,
      if_neg (by omega : ¬ f.size > maxFileSize)]

/-- C5 witness: `validateFile_spec` applied to a 1000-byte PDF upload
(accepted) and to an oversized PDF upload (rejected with the limit in the
message). -/
theorem validateFile_spec_witness :
    (allowedMimeTypes.contains "application/pdf" = true ∧ (1000 : ℕ) ≤ maxFileSize ∧
      validateFile
          (some { originalname := "a.pdf", mimetype := "application/pdf", size := 1000 }) =
        { success := true, message := "File is valid" }) ∧
    (maxFileSize + 1 > maxFileSize ∧
      jsIncludes
          (validateFile
            (some { originalname := "b.pdf", mimetype := "application/pdf", size := maxFileSize + 1 })).message
          "250 MB" = true) :=
  ⟨⟨by decide, by decide,
      validateFile_spec.2.2.2.1 _ (by decide) (by decide)⟩,
    ⟨by decide,
      (validateFile_spec.2.2.1
          { originalname := "b.pdf", mimetype := "application/pdf", size := maxFileSize + 1 }
          (by decide) (by decide)).2⟩⟩

/-! ## server.js: output filename of `POST /api/compress` -/

/-- Embedding of the output-filename generation in the compress handler:
`const originalName = req.file.originalname.replace('.pdf', '');`
`const namePrefix = originalName.substring(0, 8);`
`const outputFilename = 'comp' + namePrefix + '-' + timestamp + '.pdf';`
JavaScript `replace` with a string pattern removes only the first
occurrence, and `substring(0, 8)` takes the first 8 characters. -/
def generateOutputFilename (originalname : String) (timestamp : ℕ) : String :=
  let originalName := jsReplaceEmpty originalname ".pdf"
  let namePfx := String.mk (originalName.data.take 8)
  "comp" ++ namePfx ++ "-" ++ toString timestamp ++ ".pdf"

/-- Modelled from the claim's words, for comparison with the code: `comp`
followed by the first 8 characters of the original filename with its
trailing `.pdf` extension stripped, then `-`, the timestamp, and `.pdf`. -/
def claimOutputFilename (originalname : String) (timestamp : ℕ) : String :=
  let stem :=
    if originalname.data.drop (originalname.data.length - 4) = ".pdf".data ∧
        4 ≤ originalname.data.length then
      String.mk (originalname.data.take (originalname.data.length - 4))
    else originalname
  "comp" ++ String.mk (stem.data.take 8) ++ "-" ++ toString timestamp ++ ".pdf"

/-- C4 counterexample: for the upload name "x.pdfy.pdf" the code's
`replace('.pdf', '')` removes the first occurrence of ".pdf" (at index 1),
not the extension, producing "compxy.pdf-0.pdf" where the claim's
extension-stripped reading gives "compx.pdfy-0.pdf". -/
theorem generateOutputFilename_counterexample :
    generateOutputFilename "x.pdfy.pdf" 0 = "compxy.pdf-0.pdf" ∧
    claimOutputFilename "x.pdfy.pdf" 0 = "compx.pdfy-0.pdf" ∧
    generateOutputFilename "x.pdfy.pdf" 0 ≠ claimOutputFilename "x.pdfy.pdf" 0 :=
  ⟨by decide, by decide, by decide⟩

theorem removeFirstOcc_stem_pdf :
    ∀ stem : List Char, '.' ∉ stem →
      removeFirstOcc (stem ++ ".pdf".data) ".pdf".data = stem := by
  intro stem
  induction stem with
  | nil => intro _; decide
  | cons c rest ih =>
    intro h
    have hc : ¬ (('.' : Char) = c) := by
      intro he
      exact h (by rw [he]; exact List.mem_cons_self c rest)
    have hrest : '.' ∉ rest := fun hm => h (List.mem_cons_of_mem c hm)
    rw [List.cons_append]
    show removeFirstOcc (c :: (rest ++ ['.', 'p', 'd', 'f'])) ['.', 'p', 'd', 'f'] = c :: rest
    simp only [removeFirstOcc, matchesAt, if_neg hc, Bool.false_eq_true, if_false]
    exact congrArg (List.cons c) (ih hrest)

/-- C4 amended: the output filename is `comp` followed by the first 8
characters of the original name with the first occurrence of the substring
".pdf" removed (not the extension), then `-`, the millisecond timestamp,
then `.pdf`; when the name is a stem containing no '.' followed by the
`.pdf` extension, this coincides with stripping the extension. -/
theorem generateOutputFilename_spec :
    (∀ (name : String) (ts : ℕ),
      generateOutputFilename name ts =
        "comp" ++ String.mk ((removeFirstOcc name.data ".pdf".data).take 8) ++ "-" ++
          toString ts ++ ".pdf") ∧
    (∀ (stem : String) (ts : ℕ), '.' ∉ stem.data →
      generateOutputFilename (stem ++ ".pdf") ts =
        "comp" ++ String.mk (stem.data.take 8) ++ "-" ++ toString ts ++ ".pdf") := by
  constructor
  · intro name ts
    rfl
  · intro stem ts h
    unfold generateOutputFilename jsReplaceEmpty
    dsimp only
    rw [String.data_append, removeFirstOcc_stem_pdf stem.data h]

/-- C4 witness: the extension-stripping clause of
`generateOutputFilename_spec` applied to the name "report.pdf". -/
theorem generateOutputFilename_spec_witness :
    ('.' ∉ "report".data) ∧
      generateOutputFilename ("report" ++ ".pdf") 1700000000000 =
        "comp" ++ String.mk ("report".data.take 8) ++ "-" ++ toString 1700000000000 ++ ".pdf" :=
  ⟨by decide, generateOutputFilename_spec.2 "report" 1700000000000 (by decide)⟩

/-! ## server.js: `GET /api/download/:filename` -/

/-- Observable effects of one run of the download handler. -/
structure DownloadEffect where
  respondedNotFound : Bool
  fileDeleted : Bool
  errorLogged : Bool
deriving DecidableEq

/-- Embedding of the download handler: a missing file answers 404 and
deletes nothing; otherwise `res.download(filePath, filename, callback)`
runs and the callback receives the transfer error `err`:
`if (err) { console.error(...) } else { await fileManager.deleteFile(filePath) }`
— the file is deleted only when the transfer reported no error. -/
def downloadHandler (outputFileExists : Bool) (transferError : Option String) :
    DownloadEffect :=
  if outputFileExists = false then
    { respondedNotFound := true, fileDeleted := false, errorLogged := false }
  else
    match transferError with
    | some _ => { respondedNotFound := false, fileDeleted := false, errorLogged := true }
    | none => { respondedNotFound := false, fileDeleted := true, errorLogged := false }

/-- C3 counterexample: on a transfer that completes with an error
("ECONNRESET"), the handler does not delete the served file, so deletion
does depend on the transfer outcome, contrary to the claim. -/
theorem downloadHandler_counterexample :
    (downloadHandler true (some "ECONNRESET")).fileDeleted = false ∧
    (downloadHandler true none).fileDeleted = true :=
  ⟨rfl, rfl⟩

/-- C3 amended: after serving an existing output file the handler deletes
it only when the transfer completed without error; a failed transfer is
logged and the file is retained, and a missing file yields a 404 with no
deletion. -/
theorem downloadHandler_spec :
    (∀ e, downloadHandler true (some e) =
        { respondedNotFound := false, fileDeleted := false, errorLogged := true }) ∧
    downloadHandler true none =
      { respondedNotFound := false, fileDeleted := true, errorLogged := false } ∧
    (∀ te, downloadHandler false te =
        { respondedNotFound := true, fileDeleted := false, errorLogged := false }) :=
  ⟨fun _ => rfl, rfl, fun _ => rfl⟩

/-! ## fileManager.js: `_cleanDirectory` and `cleanupOldFiles` -/

/-- Filesystem error as the sweep distinguishes it: `error.code === 'ENOENT'`
or anything else. -/
inductive FsError where
  | enoent : FsError
  | other (msg : String) : FsError
deriving DecidableEq

/-- A directory entry as the sweep observes it: its name, the result of
`fs.stat` (the modification time `mtimeMs` on success), and the result of
`fs.unlink`. -/
structure DirEntry where
  name : String
  statResult : Except FsError ℤ
  unlinkResult : Except FsError Unit

/-- The `for (const file of files)` loop body of `_cleanDirectory`:
`const fileAge = currentTime - stats.mtimeMs;`
`if (fileAge > this.maxFileAge) { await fs.unlink(filePath); count++; }`.
Any thrown error escapes to the surrounding try/catch; the count
accumulated so far and the names unlinked so far are carried along. -/
def cleanLoop (currentTime maxFileAge : ℤ) :
    List DirEntry → ℕ → List String → Except FsError Unit × ℕ × List String
  | [], count, deleted => (Except.ok (), count, deleted)
  | e :: rest, count, deleted =>
    match e.statResult with
    | Except.error err => (Except.error err, count, deleted)
    | Except.ok mtimeMs =>
      if currentTime - mtimeMs > maxFileAge then
        match e.unlinkResult with
        | Except.error err => (Except.error err, count, deleted)
        | Except.ok _ => cleanLoop currentTime maxFileAge rest (count + 1) (deleted ++ [e.name])
      else cleanLoop currentTime maxFileAge rest count deleted

/-- Embedding of `_cleanDirectory(directory, currentTime)`: `fs.readdir`
is the `listing` argument; the whole body sits in a try/catch that
swallows an `ENOENT` error (`// Directory might not exist yet, ignore`)
and rethrows every other error; `return count` runs after the catch, so a
swallowed error still returns the count accumulated so far. The second
component is the effect log of unlinked names.
`swallowEnoent` is the catch block: it passes an `ENOENT` failure through
to `return count` and rethrows anything else. -/
def swallowEnoent : Except FsError Unit × ℕ × List String → Except FsError ℕ × List String
  | (Except.ok _, count, deleted) => (Except.ok count, deleted)
  | (Except.error err, count, deleted) =>
    if err = FsError.enoent then (Except.ok count, deleted)
    else (Except.error err, deleted)

/-- The try/catch of `_cleanDirectory(directory, currentTime)` around the
listing and the loop: `fs.readdir` is the `listing` argument. -/
def cleanDirectory (listing : Except FsError (List DirEntry)) (currentTime maxFileAge : ℤ) :
    Except FsError ℕ × List String :=
  swallowEnoent
    (match listing with
     | Except.error err => (Except.error err, 0, [])
     | Except.ok files => cleanLoop currentTime maxFileAge files 0 [])

/-- What one run of `cleanupOldFiles` amounts to: how many files the sweep
reported cleaning, and the error the catch block logged, if any. -/
structure CleanupOutcome where
  cleanedCount : ℕ
  loggedError : Option FsError
deriving DecidableEq

/-- The try-block of `cleanupOldFiles`: clean the upload directory, then
the compressed directory, adding the counts; any error escapes. -/
def cleanupOldFilesBody (uploadListing compressedListing : Except FsError (List DirEntry))
    (now maxFileAge : ℤ) : Except FsError ℕ :=
  match (cleanDirectory uploadListing now maxFileAge).1 with
  | Except.error err => Except.error err
  | Except.ok c1 =>
    match (cleanDirectory compressedListing now maxFileAge).1 with
    | Except.error err => Except.error err
    | Except.ok c2 => Except.ok (c1 + c2)

/-- Embedding of `cleanupOldFiles()`: the try/catch around the body logs
any error (`console.error('Error during cleanup:', error)`) and never
rethrows, so the function always resolves. -/
def cleanupOldFiles (uploadListing compressedListing : Except FsError (List DirEntry))
    (now maxFileAge : ℤ) : Except FsError CleanupOutcome :=
  match cleanupOldFilesBody uploadListing compressedListing now maxFileAge with
  | Except.ok c => Except.ok { cleanedCount := c, loggedError := none }
  | Except.error err => Except.ok { cleanedCount := 0, loggedError := some err }

/-- An entry whose `stat` and `unlink` both succeed, with the given name
and modification time. -/
def okEntry (p : String × ℤ) : DirEntry :=
  { name := p.1, statResult := Except.ok p.2, unlinkResult := Except.ok () }

theorem cleanLoop_ok_entries (now maxFileAge : ℤ) :
    ∀ (ps : List (String × ℤ)) (count : ℕ) (deleted : List String),
      cleanLoop now maxFileAge (ps.map okEntry) count deleted =
        (Except.ok (), count + (ps.filter fun p => decide (now - p.2 > maxFileAge)).length,
          deleted ++ (ps.filter fun p => decide (now - p.2 > maxFileAge)).map Prod.fst) := by
  intro ps
  induction ps with
  | nil => intro count deleted; simp [cleanLoop]
  | cons p rest ih =>
    intro count deleted
    by_cases h : now - p.2 > maxFileAge
    · simp only [List.map_cons, cleanLoop, okEntry, if_pos h, ih, List.filter_cons,
        decide_eq_true h, if_true, List.length_cons, List.map_cons, Prod.mk.injEq]
      refine ⟨trivial, by omega, by simp⟩
    · simp only [List.map_cons, cleanLoop, okEntry, if_neg h, ih, List.filter_cons,
        decide_eq_false h, Bool.false_eq_true, if_false]

theorem cleanDirectory_ok_entries (now maxFileAge : ℤ) (ps : List (String × ℤ)) :
    cleanDirectory (Except.ok (ps.map okEntry)) now maxFileAge =
      (Except.ok (ps.filter fun p => decide (now - p.2 > maxFileAge)).length,
        (ps.filter fun p => decide (now - p.2 > maxFileAge)).map Prod.fst) := by
  unfold cleanDirectory
  dsimp only
  rw [cleanLoop_ok_entries]
  simp [swallowEnoent]

/-- C7: a sweep pass over a directory deletes an entry if and only if its
age `now − mtimeMs` strictly exceeds the configured maximum age; in
particular an entry modified earlier than `now − maxAge − 1` ms is
deleted, and an entry modified at `now − maxAge + 1` ms is retained. -/
theorem cleanDirectory_sweep_spec :
    (∀ (now maxAge : ℤ) (ps : List (String × ℤ)),
      cleanDirectory (Except.ok (ps.map okEntry)) now maxAge =
        (Except.ok (ps.filter fun p => decide (now - p.2 > maxAge)).length,
          (ps.filter fun p => decide (now - p.2 > maxAge)).map Prod.fst)) ∧
    (∀ (now maxAge : ℤ) (name : String) (mtimeMs : ℤ), mtimeMs < now - maxAge - 1 →
      cleanDirectory (Except.ok [okEntry (name, mtimeMs)]) now maxAge =
        (Except.ok 1, [name])) ∧
    (∀ (now maxAge : ℤ) (name : String),
      cleanDirectory (Except.ok [okEntry (name, now - maxAge + 1)]) now maxAge =
        (Except.ok 0, [])) := by
  refine ⟨cleanDirectory_ok_entries, ?_, ?_⟩
  · intro now maxAge name mtimeMs h
    have heq := cleanDirectory_ok_entries now maxAge [(name, mtimeMs)]
    rw [List.map_singleton] at heq
    rw [heq]
    have hgt : now - mtimeMs > maxAge := by omega
    simp [List.filter_cons, decide_eq_true hgt]
  · intro now maxAge name
    have heq := cleanDirectory_ok_entries now maxAge [(name, now - maxAge + 1)]
    rw [List.map_singleton] at heq
    rw [heq]
    have hle : ¬ (now - (now - maxAge + 1) > maxAge) := by omega
    simp [List.filter_cons, decide_eq_false hle]

/-- C7 witness: `cleanDirectory_sweep_spec` applied at now = 1000,
maxAge = 10: the entry modified at time 0 (older than now − maxAge − 1) is
deleted. -/
theorem cleanDirectory_sweep_spec_witness :
    (0 : ℤ) < 1000 - 10 - 1 ∧
      cleanDirectory (Except.ok [okEntry ("old.pdf", 0)]) 1000 10 =
        (Except.ok 1, ["old.pdf"]) :=
  ⟨by norm_num, cleanDirectory_sweep_spec.2.1 1000 10 "old.pdf" 0 (by norm_num)⟩

theorem swallowEnoent_never_enoent (t : Except FsError Unit × ℕ × List String)
    (err : FsError) (h : (swallowEnoent t).1 = Except.error err) : err ≠ FsError.enoent := by
  obtain ⟨r, count, deleted⟩ := t
  cases r with
  | ok _ => simp [swallowEnoent] at h
  | error e =>
    by_cases he : e = FsError.enoent
    · rw [swallowEnoent, if_pos he] at h
      simp at h
    · rw [swallowEnoent, if_neg he] at h
      simp at h
      rw [← h]
      exact he

/-- C8: an ENOENT (directory absent) failure is swallowed inside the
per-directory pass, which then reports the files removed so far; every
other filesystem error propagates out of the pass (whether it came from
the listing or from a `stat` inside the loop), and an error that does
escape the pass is never ENOENT; the top-level sweep catches whatever the
passes propagate, records it as logged, and never rejects. -/
theorem cleanupOldFiles_error_handling :
    (∀ now maxAge : ℤ,
      cleanDirectory (Except.error FsError.enoent) now maxAge = (Except.ok 0, [])) ∧
    (∀ (m : String) (now maxAge : ℤ),
      cleanDirectory (Except.error (FsError.other m)) now maxAge =
        (Except.error (FsError.other m), [])) ∧
    (∀ (name m : String) (u : Except FsError Unit) (rest : List DirEntry) (now maxAge : ℤ),
      (cleanDirectory
          (Except.ok ({ name := name, statResult := Except.error (FsError.other m), unlinkResult := u } :: rest))
          now maxAge).1 =
        Except.error (FsError.other m)) ∧
    (∀ (listing : Except FsError (List DirEntry)) (now maxAge : ℤ) (err : FsError),
      (cleanDirectory listing now maxAge).1 = Except.error err → err ≠ FsError.enoent) ∧
    (∀ (ul cl : Except FsError (List DirEntry)) (now maxAge : ℤ),
      ∃ o, cleanupOldFiles ul cl now maxAge = Except.ok o) ∧
    (∀ (ul cl : Except FsError (List DirEntry)) (now maxAge : ℤ) (err : FsError),
      cleanupOldFilesBody ul cl now maxAge = Except.error err →
        cleanupOldFiles ul cl now maxAge =
          Except.ok { cleanedCount := 0, loggedError := some err }) := by
  refine ⟨fun now maxAge => rfl, fun m now maxAge => rfl, fun name m u rest now maxAge => rfl,
    ?_, ?_, ?_⟩
  · intro listing now maxAge err h
    exact swallowEnoent_never_enoent _ err h
  · intro ul cl now maxAge
    unfold cleanupOldFiles
    cases hB : cleanupOldFilesBody ul cl now maxAge with
    | ok c => exact ⟨{ cleanedCount := c, loggedError := none }, rfl⟩
    | error err => exact ⟨{ cleanedCount := 0, loggedError := some err }, rfl⟩
  · intro ul cl now maxAge err hB
    unfold cleanupOldFiles
    rw [hB]

/-- C8 witness: `cleanupOldFiles_error_handling` applied to a sweep whose
upload-directory listing fails with EACCES: the pass propagates the error
and the top-level sweep resolves, logging it. -/
theorem cleanupOldFiles_error_handling_witness :
    cleanupOldFilesBody (Except.error (FsError.other "EACCES")) (Except.ok []) 0 0 =
        Except.error (FsError.other "EACCES") ∧
      cleanupOldFiles (Except.error (FsError.other "EACCES")) (Except.ok []) 0 0 =
        Except.ok { cleanedCount := 0, loggedError := some (FsError.other "EACCES") } ∧
      FsError.other "EACCES" ≠ FsError.enoent :=
  ⟨rfl,
    cleanupOldFiles_error_handling.2.2.2.2.2 (Except.error (FsError.other "EACCES"))
      (Except.ok []) 0 0 (FsError.other "EACCES") rfl,
    cleanupOldFiles_error_handling.2.2.2.1 (Except.error (FsError.other "EACCES")) 0 0
      (FsError.other "EACCES") rfl⟩

/-! ## pdfCompressor.js: `compress` -/

/-- `formatBytes` applied to a JavaScript number that may be negative (as
`savedBytes` can be): for a negative count `Math.log` yields NaN, the unit
index and the scaled value are NaN, and the concatenation renders as
"NaN undefined". -/
def formatBytesInt (n : ℤ) : String :=
  if n < 0 then "NaN undefined" else formatBytes n.toNat

/-- The result object of a successful `compress` call. -/
structure CompressionResult where
  success : Bool
  originalSize : String
  compressedSize : String
  originalBytes : ℕ
  compressedBytes : ℕ
  compressionRatio : ℚ
  savedBytes : ℤ
  savedFormatted : String
deriving DecidableEq

/-- Embedding of `compress(inputPath, outputPath)`: measure the input size
(`originalBytes`), run Ghostscript (its resolution is the `execResult`
argument), measure the output (`compressedBytes`), then assemble the
result with `savedBytes: originalSize.bytes - compressedSize.bytes` and
the ratio from `_calculateCompressionRatio`. On failure, an error whose
message includes 'Ghostscript not found' is rethrown unchanged and any
other error is wrapped as 'Compression failed: ...'. -/
def compress (originalBytes : ℕ) (execResult : Except GsError Unit) (compressedBytes : ℕ) :
    Except String CompressionResult :=
  match execResult with
  | Except.error err =>
    if jsIncludes (gsErrorMessage err) "Ghostscript not found" then
      Except.error (gsErrorMessage err)
    else Except.error ("Compression failed: " ++ gsErrorMessage err)
  | Except.ok _ =>
    Except.ok
      { success := true
        originalSize := formatBytes originalBytes
        compressedSize := formatBytes compressedBytes
        originalBytes := originalBytes
        compressedBytes := compressedBytes
        compressionRatio := calculateCompressionRatio originalBytes compressedBytes
        savedBytes := (originalBytes : ℤ) - (compressedBytes : ℤ)
        savedFormatted := formatBytesInt ((originalBytes : ℤ) - (compressedBytes : ℤ)) }

/-- C10: on every successful compress call the returned result satisfies
`savedBytes = originalBytes − compressedBytes`, a value that can be
negative when the compressed output is larger than the input (witnessed at
100 → 150 bytes), even though `compressionRatio` in the same result is
floored at 0. -/
theorem compress_savedBytes_spec :
    (∀ o c : ℕ, ∃ res, compress o (Except.ok ()) c = Except.ok res ∧
      res.savedBytes = (o : ℤ) - (c : ℤ) ∧
      res.compressionRatio = calculateCompressionRatio o c ∧
      0 ≤ res.compressionRatio) ∧
    (∃ res, compress 100 (Except.ok ()) 150 = Except.ok res ∧
      res.savedBytes < 0 ∧ res.compressionRatio = 0) := by
  constructor
  · intro o c
    refine ⟨_, rfl, rfl, rfl, ?_⟩
    unfold calculateCompressionRatio
    split
    · exact le_refl 0
    · exact le_max_left 0 _
  · refine ⟨_, rfl, by decide, ?_⟩
    show calculateCompressionRatio 100 150 = 0
    unfold calculateCompressionRatio
    rw [if_neg (by norm_num)]
    dsimp only
    have h1 : ((((100 : ℕ) : ℚ) - ((150 : ℕ) : ℚ)) / ((100 : ℕ) : ℚ)) * 100 * 10 = -500 := by
      norm_num
    rw [h1]
    rw [jsRound_eq (-500) (-500) (by norm_num) (by norm_num)]
    norm_num

end PDFora
